import Mathlib

/-!
# Bespin job queue and status notification layer: verification development

Shallow embedding of the job dispatch core of the Bespin repository:

* `pkg/models` (`Job`, `JobResult`, the job status constants, `NewJob`);
* the Redis-backed `JobQueue` (`AddJob`, `StartProcessing`, `processJob`,
  `GetJob`, `GetJobResult`);
* the melody-based WebSocket `Server`
  (`NotifyJobStatus`, `handleConnect`, per-job subscriptions, latest-status cache);
* the Asynq-backed `AsynqQueue` (`GetJobResult`).

Redis is modelled as explicit state: a key/value store of structured values
(JSON marshalling of a `Job` or `JobResult` is injective, so values are kept
structured), per-key lists for the queues, and a log of published pub/sub
messages.  Redis lists are stored in dequeue order: the head of the model
list is the element `BRPop` returns next, and `LPush` appends at the back.
-/

set_option autoImplicit false

deriving instance DecidableEq for Except

namespace Bespin

/-! ## Data model (`pkg/models/job.go`) -/

/-- Job status constants from `pkg/models/job.go`: `queued` (the spec's
Pending), `processing`, `completed`, `failed`. -/
inductive JobStatus where
  | queued
  | processing
  | completed
  | failed
  deriving DecidableEq, Repr

/-- `models.Job`: one unit of deferred work.  The opaque `Data interface{}`
payload is modelled as a `String`; `CreatedAt` as a `Nat` timestamp. -/
structure Job where
  id : String
  jobType : String
  data : String
  createdAt : Nat
  status : JobStatus
  deriving DecidableEq, Repr

/-- `models.JobResult`: outcome of one execution attempt.  `Result` is the
opaque success payload (`none` when absent), `Error` the failure text
(`none` when absent, matching `omitempty`). -/
structure JobResult where
  jobId : String
  result : Option String
  error : Option String
  completedAt : Nat
  deriving DecidableEq, Repr

/-- `models.NewJob`: a fresh job starts in status `queued`. -/
def NewJob (jobType : String) (data : String) (now : Nat) : Job :=
  { id := "", jobType := jobType, data := data, createdAt := now, status := .queued }

/-! ## Association-list helpers (Redis keyed stores, registry maps) -/

/-- Lookup in an association list. -/
def getA {α : Type} : List (String × α) → String → Option α
  | [], _ => none
  | (k', v) :: rest, k => if k' = k then some v else getA rest k

/-- Overwriting insert into an association list. -/
def setA {α : Type} : List (String × α) → String → α → List (String × α)
  | [], k, v => [(k, v)]
  | (k', v') :: rest, k, v =>
      if k' = k then (k, v) :: rest else (k', v') :: setA rest k v

@[simp] theorem getA_setA_self {α : Type} (m : List (String × α)) (k : String) (v : α) :
    getA (setA m k v) k = some v := by
  induction m with
  | nil => simp [getA, setA]
  | cons p rest ih =>
      obtain ⟨k', v'⟩ := p
      by_cases h : k' = k <;> simp [getA, setA, h, ih]

theorem getA_setA_ne {α : Type} (m : List (String × α)) (k k' : String) (v : α)
    (h : k' ≠ k) : getA (setA m k v) k' = getA m k' := by
  have hne : k ≠ k' := Ne.symm h
  induction m with
  | nil => simp [getA, setA, hne]
  | cons p rest ih =>
      obtain ⟨k₀, v₀⟩ := p
      by_cases h₀ : k₀ = k
      · subst h₀
        simp [getA, setA, hne]
      · simp only [setA, if_neg h₀, getA]
        by_cases h₁ : k₀ = k' <;> simp [h₁, ih]

/-! ## Redis model -/

/-- A structured value stored under a Redis string key: the JSON of a `Job`
or of a `JobResult`. -/
inductive RVal where
  | jobV (j : Job)
  | resV (r : JobResult)
  deriving DecidableEq, Repr

/-- Redis state: string keys (`SET`/`GET`), lists (`LPUSH`/`BRPOP`), and the
log of `PUBLISH`ed messages `(channel, payload)`. -/
structure RedisState where
  kv : List (String × RVal)
  lists : List (String × List String)
  pubs : List (String × RVal)
  deriving DecidableEq, Repr

def RedisState.empty : RedisState := ⟨[], [], []⟩

def RedisState.get (st : RedisState) (k : String) : Option RVal := getA st.kv k

def RedisState.set (st : RedisState) (k : String) (v : RVal) : RedisState :=
  { st with kv := setA st.kv k v }

/-- `LPUSH`: the list is stored in dequeue order, so the newly pushed element
goes to the back of the model list. -/
def RedisState.lpush (st : RedisState) (k : String) (v : String) : RedisState :=
  { st with lists := setA st.lists k (((getA st.lists k).getD []) ++ [v]) }

/-- `BRPOP` with timeout: returns the next element of the list in FIFO order
together with the updated state, or `none` on timeout (empty list). -/
def RedisState.brpop (st : RedisState) (k : String) : Option (String × RedisState) :=
  match (getA st.lists k).getD [] with
  | [] => none
  | v :: rest => some (v, { st with lists := setA st.lists k rest })

def RedisState.publish (st : RedisState) (ch : String) (v : RVal) : RedisState :=
  { st with pubs := st.pubs ++ [(ch, v)] }

/-- Contents of the Redis list under key `k`, head = next element dequeued. -/
def queueOf (st : RedisState) (k : String) : List String :=
  (getA st.lists k).getD []

/-! ## `JobQueue` (Redis-backed queue, `internal/queue/queue.go`) -/

/-- Redis key `job:<id>` holding the job record. -/
def jobKey (jobID : String) : String := "job:" ++ jobID

/-- Redis key `job:<id>:result` holding the job result. -/
def resultKey (jobID : String) : String := "job:" ++ jobID ++ ":result"

/-- Redis key `queue:<type>` holding the per-type queue list. -/
def queueKey (jobType : String) : String := "queue:" ++ jobType

/-- Redis pub/sub channel `job-completed:<id>`. -/
def completedChannel (jobID : String) : String := "job-completed:" ++ jobID

/-- `queue.JobHandler`: processes a job, returning a result or an error. -/
def JobHandler : Type := Job → Except String String

/-- `JobQueue.AddJob`: builds the job with status `queued`, `SET`s it under
`job:<id>`, then `LPUSH`es the id onto `queue:<type>`.  The two Redis writes
can each fail; `setOk`/`pushOk` inject those outcomes.  On a failed `SET` the
call returns an error and nothing was written; on a failed `LPUSH` the record
was stored but the call still returns an error and the id is not returned. -/
def addJob (st : RedisState) (jobID jobType data : String) (now : Nat)
    (setOk pushOk : Bool) : RedisState × Except String String :=
  let job : Job :=
    { id := jobID, jobType := jobType, data := data, createdAt := now, status := .queued }
  if !setOk then
    (st, .error "failed to store job")
  else
    let st1 := st.set (jobKey jobID) (.jobV job)
    if !pushOk then
      (st1, .error "failed to add job to queue")
    else
      (st1.lpush (queueKey jobType) jobID, .ok jobID)

/-- A state-mutating Redis command issued by `processJob`, in program order. -/
inductive WOp where
  | setW (k : String) (v : RVal)
  | pubW (ch : String) (v : RVal)
  deriving DecidableEq, Repr

/-- Apply a trace of write commands to the Redis state, in order. -/
def applyW (st : RedisState) : List WOp → RedisState
  | [] => st
  | .setW k v :: rest => applyW (st.set k v) rest
  | .pubW ch v :: rest => applyW (st.publish ch v) rest

/-- The ordered trace of state-mutating Redis commands issued by
`JobQueue.processJob`: fetch the job (early return if the key is missing or
does not unmarshal as a job); persist status `processing`; run the handler;
on error persist status `failed` and a `JobResult` carrying the error text,
on success persist status `completed` and a `JobResult` carrying the result;
finally publish the result on `job-completed:<id>`. -/
def processJobWrites (st : RedisState) (jobID : String) (handler : JobHandler)
    (now : Nat) : List WOp :=
  match st.get (jobKey jobID) with
  | none => []
  | some (.resV _) => []
  | some (.jobV j0) =>
    let j1 : Job := { j0 with status := .processing }
    .setW (jobKey jobID) (.jobV j1) ::
      match handler j1 with
      | .error e =>
          let jr : JobResult :=
            { jobId := jobID, result := none, error := some e, completedAt := now }
          [.setW (jobKey jobID) (.jobV { j1 with status := .failed }),
           .setW (resultKey jobID) (.resV jr),
           .pubW (completedChannel jobID) (.resV jr)]
      | .ok r =>
          let jr : JobResult :=
            { jobId := jobID, result := some r, error := none, completedAt := now }
          [.setW (jobKey jobID) (.jobV { j1 with status := .completed }),
           .setW (resultKey jobID) (.resV jr),
           .pubW (completedChannel jobID) (.resV jr)]

/-- `JobQueue.processJob`: effect on the Redis state of one processing step. -/
def processJob (st : RedisState) (jobID : String) (handler : JobHandler)
    (now : Nat) : RedisState :=
  applyW st (processJobWrites st jobID handler now)

/-- `JobQueue.GetJob`: fetch and unmarshal the job record. -/
def getJob (st : RedisState) (jobID : String) : Except String Job :=
  match st.get (jobKey jobID) with
  | none => .error "failed to get job: redis: nil"
  | some (.resV _) => .error "failed to unmarshal job"
  | some (.jobV j) => .ok j

/-- `JobQueue.GetJobResult`: fetch and unmarshal the result record.  A key
that is absent — whether the id is unknown or the job simply has no stored
result yet — yields the same wrapped `redis: nil` error. -/
def jqGetJobResult (st : RedisState) (jobID : String) : Except String JobResult :=
  match st.get (resultKey jobID) with
  | none => .error "failed to get job result: redis: nil"
  | some (.jobV _) => .error "failed to unmarshal job result"
  | some (.resV r) => .ok r

/-- One iteration of the `StartProcessing` pull loop body when the
cancellation context is not yet done: `BRPOP` with bounded wait, continue on
timeout, otherwise process the dequeued job synchronously and completely. -/
def workerIter (st : RedisState) (jobType : String) (handler : JobHandler)
    (now : Nat) : RedisState :=
  match st.brpop (queueKey jobType) with
  | none => st
  | some (jobID, st1) => processJob st1 jobID handler now

/-- The `StartProcessing` loop over a trace of cancellation observations, one
per iteration of the `select`: if the context is done the goroutine returns
at once (issuing no `BRPop`); otherwise it runs one bounded-wait dequeue
iteration.  Returns the final state and the number of dequeue calls issued. -/
def workerRun (st : RedisState) (jobType : String) (handler : JobHandler)
    (now : Nat) : List Bool → RedisState × Nat
  | [] => (st, 0)
  | cancelled :: rest =>
      if cancelled then (st, 0)
      else
        let st1 := workerIter st jobType handler now
        let out := workerRun st1 jobType handler now rest
        (out.1, out.2 + 1)

/-! ## Worker pool interleavings (concurrent producers and consumers)

`StartProcessing` may be running for several worker goroutines while
producers keep calling `AddJob`.  Redis executes each command atomically, so
an execution is an interleaving of atomic `BRPOP`s (one per loop iteration
that finds a job) and atomic `AddJob` enqueues.  A `PoolEvent` is one such
scheduler slot. -/

inductive PoolEvent where
  | deq (worker : Nat)
  | enq (jobID : String) (data : String)
  deriving DecidableEq, Repr

/-- Ids enqueued by the producer events of a schedule, in order. -/
def enqIds : List PoolEvent → List String
  | [] => []
  | .deq _ :: rest => enqIds rest
  | .enq j _ :: rest => j :: enqIds rest

/-- Run a schedule of pool events against the shared Redis state.  A `deq w`
slot is one iteration of worker `w`'s pull loop: `BRPOP` (atomic removal),
then the synchronous `processJob`.  An `enq j d` slot is a producer's
successful `AddJob`.  Returns the final state and the assignment list of
`(worker, jobID)` pairs, in dequeue order. -/
def runPool (jobType : String) (handler : JobHandler) (now : Nat) :
    RedisState → List PoolEvent → RedisState × List (Nat × String)
  | st, [] => (st, [])
  | st, .deq w :: rest =>
      match st.brpop (queueKey jobType) with
      | none => runPool jobType handler now st rest
      | some (jobID, st1) =>
          let out := runPool jobType handler now (processJob st1 jobID handler now) rest
          (out.1, (w, jobID) :: out.2)
  | st, .enq j d :: rest =>
      runPool jobType handler now (addJob st j jobType d now true true).1 rest

/-! ## WebSocket server (melody-based, `internal/websocket/server.go`) -/

/-- The `websocket.JobStatus` message: `{type, job_id, status, result}` with
`type` always `"job_status"` and `result` optional. -/
structure StatusMsg where
  type : String
  jobId : String
  status : String
  result : Option String
  deriving DecidableEq, Repr

/-- A melody session.  `HandleConnection` stores the job id in the request
context before the upgrade; `sid` stands for the session's identity (the
`*melody.Session` pointer). -/
structure Session where
  sid : Nat
  jobId : Option String
  deriving DecidableEq, Repr

/-- The `websocket.Server` state: the latest `JobStatus` cached per job id
(`jobStatuses`), and the live sessions registered in melody's hub. -/
structure WsServer where
  jobStatuses : List (String × StatusMsg)
  sessions : List Session
  deriving DecidableEq, Repr

def WsServer.empty : WsServer := ⟨[], []⟩

/-- The message built by `NotifyJobStatus`. -/
def mkStatusMsg (jobID status : String) (result : Option String) : StatusMsg :=
  { type := "job_status", jobId := jobID, status := status, result := result }

/-- `Server.NotifyJobStatus`: build the message, store it as the latest
status for the job id (overwriting any prior entry), then
`BroadcastFilter` it to exactly the sessions whose request context carries
this job id.  Returns the new server state and the list of
`(session, message)` deliveries. -/
def notifyJobStatus (s : WsServer) (jobID status : String) (result : Option String) :
    WsServer × List (Nat × StatusMsg) :=
  let message := mkStatusMsg jobID status result
  let s1 : WsServer := { s with jobStatuses := setA s.jobStatuses jobID message }
  let sends :=
    (s1.sessions.filter (fun t => t.jobId == some jobID)).map
      (fun t => (t.sid, message))
  (s1, sends)

/-- `Server.handleConnect`: melody's hub has registered the session (its hub
is a map keyed by the session, so re-registering the same session is a
no-op); the handler then reads the job id from the session context, and if a
latest status is cached for that job id, writes it to this session only. -/
def handleConnect (s : WsServer) (sess : Session) : WsServer × List (Nat × StatusMsg) :=
  let s1 : WsServer :=
    { s with sessions := if sess ∈ s.sessions then s.sessions else s.sessions ++ [sess] }
  match sess.jobId with
  | none => (s1, [])
  | some j =>
      match getA s1.jobStatuses j with
      | some msg => (s1, [(sess.sid, msg)])
      | none => (s1, [])

/-! ## Gorilla-websocket server (go-bespin `internal/websocket/server.go`)

The go-bespin variant's broadcaster has no per-job subscription state:
`Client` carries only an id (the remote address), the `Server` keeps a plain
set of connected clients, and nothing caches a latest event per job id.
`listenForJobCompletions` pattern-subscribes to `job-completed:*` and, for
each message received, forwards the message's payload to every connected
client (a client whose send buffer is full is dropped; the model lets every
send succeed). -/

/-- One message delivery of `listenForJobCompletions`: the payload of a
`job-completed:<id>` message is written to every connected client — the
channel's job id is ignored, and nothing is cached. -/
def listenForJobCompletionsStep (clients : List Nat) (channel : String)
    (payload : RVal) : List (Nat × RVal) :=
  clients.map (fun c => (c, payload))

/-! ## `AsynqQueue` (`internal/queue/queue.go` of the api module) -/

/-- The slice of `asynq.TaskInfo` that `AsynqQueue.GetJobResult` reads. -/
structure TaskInfo where
  state : String
  result : String
  lastErr : String
  completedAt : Nat
  deriving DecidableEq, Repr

/-- The `go-bespin-api` job status constants used by `AsynqQueue`. -/
inductive ApiJobStatus where
  | pending
  | processing
  | completed
  | failed
  | retrying
  deriving DecidableEq, Repr

/-- The `go-bespin-api` `models.JobResult` as populated by
`AsynqQueue.GetJobResult`. -/
structure ApiJobResult where
  id : String
  status : ApiJobStatus
  createdAt : Nat
  completedAt : Option Nat
  result : Option String
  error : Option String
  deriving DecidableEq, Repr

/-- `AsynqQueue.GetJobResult`: looks the task up in the inspector (the
`tasks` map models the "default" queue).  An unknown id hits
`asynq.ErrTaskNotFound` and returns `(nil, nil)` — modelled `.ok none` — as
a distinct not-found outcome.  For a known task a `JobResult` is built whose
status defaults to Pending and is upgraded according to the task state. -/
def buildApiResult (jobID : String) (info : TaskInfo) (now : Nat) : ApiJobResult :=
  let base : ApiJobResult :=
    { id := jobID, status := .pending, createdAt := now,
      completedAt := none, result := none, error := none }
  if info.state = "active" then
    { base with status := .processing }
  else if info.state = "completed" then
    { base with
        status := .completed
        completedAt := some info.completedAt
        result := some info.result }
  else if info.state = "failed" then
    { base with status := .failed, error := some info.lastErr }
  else if info.state = "retry" then
    { base with status := .retrying, error := some info.lastErr }
  else base

def asynqGetJobResult (tasks : List (String × TaskInfo)) (jobID : String)
    (now : Nat) : Except String (Option ApiJobResult) :=
  match getA tasks jobID with
  | none => .ok none
  | some info => .ok (some (buildApiResult jobID info now))

/-! ## Theorems -/

/-- The melody half of the publish behaviour: every call
`NotifyJobStatus(jobID, status, result)` stores the built `JobStatus` event
as the latest event for `jobID`, overwriting any prior latest and leaving
other job ids' cached events untouched, and sends that event to exactly the
sessions currently subscribed to `jobID`: a delivery `(c, m)` happens iff
`m` is the built event and some registered session has id `c` and is
subscribed to `jobID`, so no session subscribed only to other job ids
receives anything. -/
theorem notify_stores_latest_and_delivers_exactly_to_subscribers
    (s : WsServer) (jobID status : String) (result : Option String) :
    getA (notifyJobStatus s jobID status result).1.jobStatuses jobID
        = some (mkStatusMsg jobID status result)
    ∧ (∀ j, j ≠ jobID →
        getA (notifyJobStatus s jobID status result).1.jobStatuses j
          = getA s.jobStatuses j)
    ∧ (notifyJobStatus s jobID status result).1.sessions = s.sessions
    ∧ (∀ c m, (c, m) ∈ (notifyJobStatus s jobID status result).2 ↔
        (m = mkStatusMsg jobID status result
          ∧ ∃ t ∈ s.sessions, t.sid = c ∧ t.jobId = some jobID)) := by
  refine ⟨by simp [notifyJobStatus], ?_, rfl, ?_⟩
  · intro j hj
    simpa [notifyJobStatus] using getA_setA_ne s.jobStatuses jobID j _ hj
  · intro c m
    simp only [notifyJobStatus, List.mem_map, List.mem_filter, beq_iff_eq]
    constructor
    · rintro ⟨t, ⟨ht, hjid⟩, heq⟩
      obtain ⟨h1, h2⟩ := Prod.mk.injEq _ _ _ _ ▸ heq
      exact ⟨h2.symm, t, ht, h1, hjid⟩
    · rintro ⟨hm, t, ht, hsid, hjid⟩
      exact ⟨t, ⟨ht, hjid⟩, by simp [hsid, hm.symm]⟩

/-- **C1, counterexample.**  Jobs `"a"` and `"b"` are enqueued and
processed; their completion events are published on their respective
channels; the go-bespin broadcaster, with clients 1 and 2 connected (no
per-job subscription exists in that server), forwards job `"a"`'s event to
both clients and job `"b"`'s event to both clients.  A connection interested
only in job `"a"` thus receives job `"b"`'s event and vice versa, and no
latest event is cached anywhere, contradicting the claim that the event is
stored as the latest and sent to no connection subscribed only to other job
ids. -/
theorem gorilla_broadcasts_completion_events_to_all_clients :
    (processJob (processJob
        (addJob (addJob RedisState.empty "a" "echo" "d" 0 true true).1
          "b" "echo" "d" 0 true true).1
        "a" (fun _ => .ok "done") 5) "b" (fun _ => .ok "done") 6).pubs
      = [(completedChannel "a",
          .resV { jobId := "a", result := some "done", error := none,
                  completedAt := 5 }),
         (completedChannel "b",
          .resV { jobId := "b", result := some "done", error := none,
                  completedAt := 6 })]
    ∧ listenForJobCompletionsStep [1, 2] (completedChannel "a")
        (.resV { jobId := "a", result := some "done", error := none,
                 completedAt := 5 })
      = [(1, .resV { jobId := "a", result := some "done", error := none,
                     completedAt := 5 }),
         (2, .resV { jobId := "a", result := some "done", error := none,
                     completedAt := 5 })]
    ∧ listenForJobCompletionsStep [1, 2] (completedChannel "b")
        (.resV { jobId := "b", result := some "done", error := none,
                 completedAt := 6 })
      = [(1, .resV { jobId := "b", result := some "done", error := none,
                     completedAt := 6 }),
         (2, .resV { jobId := "b", result := some "done", error := none,
                     completedAt := 6 })] := by
  exact ⟨by decide, by decide, by decide⟩

/-- **C1, amended.**  Only the melody server provides per-job delivery: its
`NotifyJobStatus` stores the built StatusEvent as the latest for the job id
(overwriting any prior latest, other ids untouched) and sends it exactly to
the connections currently subscribed to that job id and to no connection
subscribed only to other job ids.  The go-bespin gorilla broadcaster
(`listenForJobCompletions`), by contrast, caches no latest event and
forwards any completion payload to every connected client, ignoring the
channel's job id. -/
theorem melody_filters_by_job_gorilla_forwards_to_all
    (s : WsServer) (jobID status : String) (result : Option String)
    (clients : List Nat) (channel : String) (payload : RVal) :
    (getA (notifyJobStatus s jobID status result).1.jobStatuses jobID
        = some (mkStatusMsg jobID status result)
      ∧ (∀ j, j ≠ jobID →
          getA (notifyJobStatus s jobID status result).1.jobStatuses j
            = getA s.jobStatuses j)
      ∧ (notifyJobStatus s jobID status result).1.sessions = s.sessions
      ∧ (∀ c m, (c, m) ∈ (notifyJobStatus s jobID status result).2 ↔
          (m = mkStatusMsg jobID status result
            ∧ ∃ t ∈ s.sessions, t.sid = c ∧ t.jobId = some jobID)))
    ∧ (∀ c m, (c, m) ∈ listenForJobCompletionsStep clients channel payload ↔
        (c ∈ clients ∧ m = payload)) := by
  refine ⟨notify_stores_latest_and_delivers_exactly_to_subscribers
    s jobID status result, ?_⟩
  intro c m
  simp only [listenForJobCompletionsStep, List.mem_map]
  constructor
  · rintro ⟨c', hc', heq⟩
    obtain ⟨h1, h2⟩ := Prod.mk.injEq _ _ _ _ ▸ heq
    exact ⟨h1 ▸ hc', h2.symm⟩
  · rintro ⟨hc, hm⟩
    exact ⟨c, hc, by simp [hm.symm]⟩

/-- Witness for C1's amended statement: the melody cache holds the published
event, while the gorilla broadcaster delivers job `"a"`'s payload to client
2 as well. -/
theorem melody_filters_gorilla_forwards_witness :
    getA (notifyJobStatus ⟨[], [⟨1, some "a"⟩, ⟨2, some "b"⟩]⟩ "a" "completed"
        (some "r")).1.jobStatuses "a" = some (mkStatusMsg "a" "completed" (some "r"))
    ∧ ((2 : Nat),
        RVal.resV { jobId := "a", result := some "done", error := none,
                    completedAt := 5 })
        ∈ listenForJobCompletionsStep [1, 2] (completedChannel "a")
            (.resV { jobId := "a", result := some "done", error := none,
                     completedAt := 5 }) :=
  ⟨(melody_filters_by_job_gorilla_forwards_to_all
      ⟨[], [⟨1, some "a"⟩, ⟨2, some "b"⟩]⟩ "a" "completed" (some "r")
      [1, 2] (completedChannel "a")
      (.resV { jobId := "a", result := some "done", error := none,
               completedAt := 5 })).1.1,
   ((melody_filters_by_job_gorilla_forwards_to_all
      ⟨[], [⟨1, some "a"⟩, ⟨2, some "b"⟩]⟩ "a" "completed" (some "r")
      [1, 2] (completedChannel "a")
      (.resV { jobId := "a", result := some "done", error := none,
               completedAt := 5 })).2 2
      (.resV { jobId := "a", result := some "done", error := none,
               completedAt := 5 })).mpr ⟨by decide, rfl⟩⟩

/-- **C2.**  When a session connects for a job id whose latest `JobStatus`
event is cached, `handleConnect` registers the subscription (the session is
in the hub afterwards) and sends the cached event to this session only: the
delivery list is exactly `[(sess, cachedEvent)]`.  No new publish is
involved: the cache is unchanged. -/
theorem connect_registers_then_replays_latest_to_new_session_only
    (s : WsServer) (c : Nat) (jobID : String) (msg : StatusMsg)
    (hcache : getA s.jobStatuses jobID = some msg) :
    (⟨c, some jobID⟩ : Session) ∈ (handleConnect s ⟨c, some jobID⟩).1.sessions
    ∧ (handleConnect s ⟨c, some jobID⟩).2 = [(c, msg)]
    ∧ (handleConnect s ⟨c, some jobID⟩).1.jobStatuses = s.jobStatuses := by
  have hreg : (⟨c, some jobID⟩ : Session) ∈
      (if (⟨c, some jobID⟩ : Session) ∈ s.sessions then s.sessions
       else s.sessions ++ [⟨c, some jobID⟩]) := by
    by_cases h : (⟨c, some jobID⟩ : Session) ∈ s.sessions <;> simp [h]
  refine ⟨by simpa [handleConnect, hcache] using hreg, ?_, ?_⟩ <;>
    simp [handleConnect, hcache]

/-- Witness for C2: a client connecting for job `"a"` after the status was
published immediately receives the cached completed event. -/
theorem connect_replays_latest_witness :
    (handleConnect ⟨[("a", mkStatusMsg "a" "completed" (some "r"))], []⟩
        ⟨7, some "a"⟩).2 = [(7, mkStatusMsg "a" "completed" (some "r"))] :=
  (connect_registers_then_replays_latest_to_new_session_only
    ⟨[("a", mkStatusMsg "a" "completed" (some "r"))], []⟩ 7 "a"
    (mkStatusMsg "a" "completed" (some "r")) (by decide)).2.1

/-- The server state after `handleConnect`: the session is registered in the
hub (a no-op if it already is), the latest-status cache is untouched. -/
theorem handleConnect_fst (s : WsServer) (sess : Session) :
    (handleConnect s sess).1 =
      ⟨s.jobStatuses, if sess ∈ s.sessions then s.sessions else s.sessions ++ [sess]⟩ := by
  cases h : sess.jobId with
  | none => simp [handleConnect, h]
  | some j => cases hq : getA s.jobStatuses j <;> simp [handleConnect, h, hq]

/-- **C9.**  Subscribing is idempotent: registering the same session twice
leaves the hub in the same state as registering it once (melody's hub is a
map keyed by the session), and a subsequent `NotifyJobStatus` for that job
id delivers the event to that session exactly once, provided no other
registered session shares its identity. -/
theorem subscribe_idempotent_single_delivery
    (s : WsServer) (sess : Session) (jobID status : String) (result : Option String)
    (hfresh : ∀ t ∈ s.sessions, t.sid ≠ sess.sid)
    (hjid : sess.jobId = some jobID) :
    (handleConnect (handleConnect s sess).1 sess).1 = (handleConnect s sess).1
    ∧ ((notifyJobStatus (handleConnect s sess).1 jobID status result).2.filter
        (fun p => p.1 == sess.sid)).length = 1 := by
  constructor
  · have hmem : sess ∈ (handleConnect s sess).1.sessions := by
      rw [handleConnect_fst]
      by_cases h : sess ∈ s.sessions <;> simp [h]
    rw [handleConnect_fst (handleConnect s sess).1 sess, if_pos hmem]
  · have hnotin : sess ∉ s.sessions := fun hmem => hfresh sess hmem rfl
    have hsess2 : (handleConnect s sess).1.sessions = s.sessions ++ [sess] := by
      rw [handleConnect_fst]
      simp [hnotin]
    have key0 : ∀ l : List Session, (∀ t ∈ l, t.sid ≠ sess.sid) →
        ((l.filter (fun t => t.jobId == some jobID)).map
            (fun t => (t.sid, mkStatusMsg jobID status result))).filter
          (fun p => p.1 == sess.sid) = [] := by
      intro l
      induction l with
      | nil => intro _; simp
      | cons t rest ih =>
          intro hall
          have ht : t.sid ≠ sess.sid := hall t (by simp)
          have hrest := fun u hu => hall u (List.mem_cons_of_mem t hu)
          by_cases hf : t.jobId = some jobID <;>
            simp [List.filter_cons, hf, ht, ih hrest]
    have key : (((s.sessions ++ [sess]).filter (fun t => t.jobId == some jobID)).map
            (fun t => (t.sid, mkStatusMsg jobID status result))).filter
          (fun p => p.1 == sess.sid) = [(sess.sid, mkStatusMsg jobID status result)] := by
      simp [List.filter_append, List.filter_cons, hjid, key0 s.sessions hfresh]
    simpa [notifyJobStatus, hsess2] using congrArg List.length key

/-- Witness for C9: double-subscribing session 5 to job `"a"` equals a
single subscription, and one publish reaches it exactly once. -/
theorem subscribe_idempotent_witness :
    (handleConnect (handleConnect WsServer.empty ⟨5, some "a"⟩).1 ⟨5, some "a"⟩).1
        = (handleConnect WsServer.empty ⟨5, some "a"⟩).1
    ∧ ((notifyJobStatus (handleConnect WsServer.empty ⟨5, some "a"⟩).1 "a" "completed"
        none).2.filter (fun p => p.1 == 5)).length = 1 :=
  subscribe_idempotent_single_delivery WsServer.empty ⟨5, some "a"⟩ "a" "completed"
    none (by intro t ht; simp [WsServer.empty] at ht) rfl

/-- Whether a Go-style `(value, err)` return carries no error. -/
def isOkE {ε α : Type} : Except ε α → Bool
  | .ok _ => true
  | .error _ => false

/-- **C5.**  `AddJob` returns a job id exactly when both the `SET` of the
`queued` job record and the `LPUSH` onto the type queue succeed; when the
store write fails the caller gets an error, no id, and the state is
untouched — the job is observably not enqueued. -/
theorem addjob_returns_id_iff_both_writes_succeed
    (st : RedisState) (jobID jobType data : String) (now : Nat) (setOk pushOk : Bool) :
    (isOkE (addJob st jobID jobType data now setOk pushOk).2
        = (setOk && pushOk))
    ∧ (setOk = false →
        addJob st jobID jobType data now setOk pushOk
          = (st, .error "failed to store job"))
    ∧ (setOk = true → pushOk = true →
        (addJob st jobID jobType data now setOk pushOk).2 = .ok jobID) := by
  refine ⟨?_, ?_, ?_⟩
  · cases setOk <;> cases pushOk <;> simp [addJob, isOkE]
  · intro h; subst h; simp [addJob]
  · intro h1 h2; subst h1; subst h2; simp [addJob]

/-- Witness for C5: a failed store write returns an error and leaves the
state unchanged, and a fully successful enqueue returns the id. -/
theorem addjob_store_failure_witness :
    addJob RedisState.empty "j1" "echo" "d" 0 false true
        = (RedisState.empty, .error "failed to store job")
    ∧ (addJob RedisState.empty "j1" "echo" "d" 0 true true).2 = .ok "j1" :=
  ⟨(addjob_returns_id_iff_both_writes_succeed
      RedisState.empty "j1" "echo" "d" 0 false true).2.1 rfl,
   (addjob_returns_id_iff_both_writes_succeed
      RedisState.empty "j1" "echo" "d" 0 true true).2.2 rfl rfl⟩

/-- **C3, counterexample.**  In the Redis-backed `JobQueue`, `GetJobResult`
does not give unknown ids a distinct NotFound outcome: with job `"j1"`
enqueued (it exists, status `queued`, not finished) and `"nosuch"` never
enqueued, both lookups return the identical wrapped `redis: nil` error. -/
theorem jq_getjobresult_conflates_unknown_and_pending :
    (addJob RedisState.empty "j1" "echo" "d" 0 true true).2 = .ok "j1"
    ∧ getJob (addJob RedisState.empty "j1" "echo" "d" 0 true true).1 "j1"
        = .ok { id := "j1", jobType := "echo", data := "d", createdAt := 0,
                status := .queued }
    ∧ jqGetJobResult (addJob RedisState.empty "j1" "echo" "d" 0 true true).1 "nosuch"
        = jqGetJobResult (addJob RedisState.empty "j1" "echo" "d" 0 true true).1 "j1"
    ∧ jqGetJobResult (addJob RedisState.empty "j1" "echo" "d" 0 true true).1 "nosuch"
        = .error "failed to get job result: redis: nil" := by
  refine ⟨rfl, by decide, by decide, by decide⟩

/-- **C3, amended.**  The Asynq-backed queue does distinguish the cases: an
unknown id returns the NotFound outcome `(nil, nil)` — `.ok none` — while a
job that exists but has not finished returns a Pending-status `JobResult`,
a different outcome; in the Redis-backed `JobQueue`, by contrast, any two
ids without a stored result (unknown or merely unfinished) get the same
error. -/
theorem asynq_getjobresult_notfound_distinct_from_pending
    (tasks : List (String × TaskInfo)) (unknownId knownId : String)
    (info : TaskInfo) (now : Nat)
    (hunknown : getA tasks unknownId = none)
    (hknown : getA tasks knownId = some info)
    (hstate : info.state = "pending") :
    asynqGetJobResult tasks unknownId now = .ok none
    ∧ asynqGetJobResult tasks knownId now
        = .ok (some { id := knownId, status := .pending, createdAt := now,
                      completedAt := none, result := none, error := none })
    ∧ asynqGetJobResult tasks unknownId now ≠ asynqGetJobResult tasks knownId now
    ∧ (∀ st : RedisState, ∀ a b : String,
        st.get (resultKey a) = none → st.get (resultKey b) = none →
          jqGetJobResult st a = jqGetJobResult st b) := by
  refine ⟨by simp [asynqGetJobResult, hunknown], ?_, ?_, ?_⟩
  · simp [asynqGetJobResult, hknown, buildApiResult, hstate]
  · simp [asynqGetJobResult, hunknown, hknown]
  · intro st a b ha hb
    simp [jqGetJobResult, ha, hb]

/-- Witness for C3's amended statement at a concrete inspector state with one
pending task `"k"` and the unknown id `"u"`. -/
theorem asynq_getjobresult_notfound_witness :
    asynqGetJobResult [("k", ⟨"pending", "", "", 0⟩)] "u" 3 = .ok none
    ∧ asynqGetJobResult [("k", ⟨"pending", "", "", 0⟩)] "k" 3
        = .ok (some { id := "k", status := .pending, createdAt := 3,
                      completedAt := none, result := none, error := none }) :=
  ⟨(asynq_getjobresult_notfound_distinct_from_pending
      [("k", ⟨"pending", "", "", 0⟩)] "u" "k" ⟨"pending", "", "", 0⟩ 3
      (by decide) (by decide) rfl).1,
   (asynq_getjobresult_notfound_distinct_from_pending
      [("k", ⟨"pending", "", "", 0⟩)] "u" "k" ⟨"pending", "", "", 0⟩ 3
      (by decide) (by decide) rfl).2.1⟩

/-! ### Effect of one `processJob` step -/

theorem applyW_lists (ops : List WOp) : ∀ st : RedisState, (applyW st ops).lists = st.lists := by
  induction ops with
  | nil => intro st; rfl
  | cons op rest ih =>
      intro st
      cases op with
      | setW k v => exact ih (st.set k v)
      | pubW ch v => exact ih (st.publish ch v)

/-- `processJob` never touches the Redis lists: in particular it never
re-enqueues the job it just finished. -/
theorem processJob_lists (st : RedisState) (jobID : String) (h : JobHandler)
    (now : Nat) : (processJob st jobID h now).lists = st.lists :=
  applyW_lists _ st

theorem jobKey_ne_resultKey (id : String) : jobKey id ≠ resultKey id := by
  intro hcontra
  have h2 := congrArg String.length hcontra
  simp [jobKey, resultKey, String.length_append] at h2
  exact (by decide : ¬(":result".length = 0)) h2

/-- Effect of `processJob` on a stored job whose handler succeeds: the
handler ran on the Processing-marked job, the record ends `completed`, the
`JobResult` carrying the handler's return value is stored, and the result
is published on the job's completion channel.  The queue lists are
untouched. -/
theorem processJob_effect_ok (st : RedisState) (jobID : String) (h : JobHandler)
    (now : Nat) (j0 : Job) (r : String)
    (hget : st.get (jobKey jobID) = some (.jobV j0))
    (hh : h { j0 with status := .processing } = .ok r) :
    (processJob st jobID h now).get (jobKey jobID)
        = some (.jobV { j0 with status := .completed })
    ∧ (processJob st jobID h now).get (resultKey jobID)
        = some (.resV { jobId := jobID, result := some r, error := none,
                        completedAt := now })
    ∧ (processJob st jobID h now).pubs
        = st.pubs ++ [(completedChannel jobID,
            .resV { jobId := jobID, result := some r, error := none,
                    completedAt := now })]
    ∧ (processJob st jobID h now).lists = st.lists := by
  have hne := jobKey_ne_resultKey jobID
  have hget' : getA st.kv (jobKey jobID) = some (RVal.jobV j0) := hget
  refine ⟨?_, ?_, ?_, processJob_lists st jobID h now⟩ <;>
    simp [processJob, processJobWrites, hget, hget', hh, applyW, RedisState.get,
      RedisState.set, RedisState.publish, getA_setA_ne _ _ _ _ hne]

/-- Effect of `processJob` on a stored job whose handler errors: the record
ends `failed`, the `JobResult` carrying the error text (and no result) is
stored, and it is published on the job's completion channel.  The queue
lists are untouched. -/
theorem processJob_effect_error (st : RedisState) (jobID : String) (h : JobHandler)
    (now : Nat) (j0 : Job) (e : String)
    (hget : st.get (jobKey jobID) = some (.jobV j0))
    (hh : h { j0 with status := .processing } = .error e) :
    (processJob st jobID h now).get (jobKey jobID)
        = some (.jobV { j0 with status := .failed })
    ∧ (processJob st jobID h now).get (resultKey jobID)
        = some (.resV { jobId := jobID, result := none, error := some e,
                        completedAt := now })
    ∧ (processJob st jobID h now).pubs
        = st.pubs ++ [(completedChannel jobID,
            .resV { jobId := jobID, result := none, error := some e,
                    completedAt := now })]
    ∧ (processJob st jobID h now).lists = st.lists := by
  have hne := jobKey_ne_resultKey jobID
  have hget' : getA st.kv (jobKey jobID) = some (RVal.jobV j0) := hget
  refine ⟨?_, ?_, ?_, processJob_lists st jobID h now⟩ <;>
    simp [processJob, processJobWrites, hget, hget', hh, applyW, RedisState.get,
      RedisState.set, RedisState.publish, getA_setA_ne _ _ _ _ hne]

/-- The terminal status of one execution attempt: `completed` exactly when
the handler, run on the Processing-marked job, succeeded; `failed` otherwise. -/
def attemptStatus (h : JobHandler) (j0 : Job) : JobStatus :=
  match h { j0 with status := .processing } with
  | .ok _ => .completed
  | .error _ => .failed

/-- **C6.**  Job lifecycle state machine: `AddJob` creates the record in the
initial (`queued` = the spec's Pending) status; `processJob` hands the
handler the job marked `processing` and ends the attempt with the record in
exactly one of `completed` or `failed` — `completed` precisely when the
handler succeeded — and it never pushes anything back onto any queue list,
so a terminal job is not automatically re-enqueued.  (`go-bespin` has no
retry policy and its status type has no Retrying value, so the
retry-only-under-policy proviso holds vacuously; only `AddJob` and
`processJob` write job records at all.) -/
theorem job_status_state_machine
    (st0 st : RedisState) (jobID jobType data : String) (now now2 : Nat)
    (h : JobHandler) (j0 : Job)
    (hget : st.get (jobKey jobID) = some (.jobV j0)) :
    (addJob st0 jobID jobType data now true true).1.get (jobKey jobID)
        = some (.jobV { id := jobID, jobType := jobType, data := data,
                        createdAt := now, status := .queued })
    ∧ (processJob st jobID h now2).get (jobKey jobID)
        = some (.jobV { j0 with status := attemptStatus h j0 })
    ∧ (processJob st jobID h now2).lists = st.lists := by
  refine ⟨?_, ?_, processJob_lists st jobID h now2⟩
  · simp [addJob, RedisState.get, RedisState.set, RedisState.lpush]
  · cases hh : h { j0 with status := JobStatus.processing } with
    | ok r =>
        simpa [attemptStatus, hh] using
          (processJob_effect_ok st jobID h now2 j0 r hget hh).1
    | error e =>
        simpa [attemptStatus, hh] using
          (processJob_effect_error st jobID h now2 j0 e hget hh).1

/-- Witness for C6: a freshly added job is `queued`; processing it with a
succeeding handler leaves it `completed` and the queue lists untouched. -/
theorem job_status_state_machine_witness :
    (addJob RedisState.empty "j1" "echo" "d" 0 true true).1.get (jobKey "j1")
        = some (.jobV { id := "j1", jobType := "echo", data := "d",
                        createdAt := 0, status := .queued })
    ∧ (processJob (addJob RedisState.empty "j1" "echo" "d" 0 true true).1 "j1"
          (fun _ => .ok "5 words") 7).get (jobKey "j1")
        = some (.jobV { id := "j1", jobType := "echo", data := "d",
                        createdAt := 0, status := .completed }) := by
  have hmain := job_status_state_machine RedisState.empty
    (addJob RedisState.empty "j1" "echo" "d" 0 true true).1 "j1" "echo" "d" 0 7
    (fun _ => .ok "5 words")
    { id := "j1", jobType := "echo", data := "d", createdAt := 0, status := .queued }
    (by decide)
  exact ⟨hmain.1, hmain.2.1⟩

/-- **C10.**  On both branches of `processJob`, the `SET` of the `JobResult`
under `job:<id>:result` is issued strictly before the `PUBLISH` of the
completion event for that job — the write trace ends with exactly that
`SET` followed by that `PUBLISH`, both carrying the same `JobResult` — so
once the completion event is out, `GetJobResult` finds the stored result. -/
theorem result_stored_before_completion_published
    (st : RedisState) (jobID : String) (h : JobHandler) (now : Nat) (j0 : Job)
    (hget : st.get (jobKey jobID) = some (.jobV j0)) :
    ∃ pre : List WOp, ∃ jr : JobResult,
      processJobWrites st jobID h now
          = pre ++ [.setW (resultKey jobID) (.resV jr),
                    .pubW (completedChannel jobID) (.resV jr)]
      ∧ jqGetJobResult (processJob st jobID h now) jobID = .ok jr
      ∧ (processJob st jobID h now).pubs
          = st.pubs ++ [(completedChannel jobID, .resV jr)] := by
  cases hh : h { j0 with status := JobStatus.processing } with
  | ok r =>
      have heff := processJob_effect_ok st jobID h now j0 r hget hh
      refine ⟨[.setW (jobKey jobID) (.jobV { j0 with status := .processing }),
               .setW (jobKey jobID) (.jobV { j0 with status := .completed })],
        { jobId := jobID, result := some r, error := none, completedAt := now },
        ?_, ?_, heff.2.2.1⟩
      · simp [processJobWrites, hget, hh]
      · simp [jqGetJobResult, heff.2.1]
  | error e =>
      have heff := processJob_effect_error st jobID h now j0 e hget hh
      refine ⟨[.setW (jobKey jobID) (.jobV { j0 with status := .processing }),
               .setW (jobKey jobID) (.jobV { j0 with status := .failed })],
        { jobId := jobID, result := none, error := some e, completedAt := now },
        ?_, ?_, heff.2.2.1⟩
      · simp [processJobWrites, hget, hh]
      · simp [jqGetJobResult, heff.2.1]

/-- Witness for C10 at a concrete stored job and succeeding handler. -/
theorem result_stored_before_publish_witness :
    ∃ pre : List WOp, ∃ jr : JobResult,
      processJobWrites (addJob RedisState.empty "j1" "echo" "d" 0 true true).1 "j1"
          (fun _ => .ok "out") 7
          = pre ++ [.setW (resultKey "j1") (.resV jr),
                    .pubW (completedChannel "j1") (.resV jr)]
      ∧ jqGetJobResult (processJob (addJob RedisState.empty "j1" "echo" "d" 0 true
            true).1 "j1" (fun _ => .ok "out") 7) "j1" = .ok jr
      ∧ (processJob (addJob RedisState.empty "j1" "echo" "d" 0 true true).1 "j1"
            (fun _ => .ok "out") 7).pubs
          = (addJob RedisState.empty "j1" "echo" "d" 0 true true).1.pubs
              ++ [(completedChannel "j1", .resV jr)] :=
  result_stored_before_completion_published
    (addJob RedisState.empty "j1" "echo" "d" 0 true true).1 "j1"
    (fun _ => .ok "out") 7
    { id := "j1", jobType := "echo", data := "d", createdAt := 0, status := .queued }
    (by decide)

/-! ### The pull loop under cancellation -/

/-- **C7.**  The `StartProcessing` loop checks the cancellation context once
per iteration (one bounded-wait interval): over any trace of cancellation
observations, the number of `BRPop` dequeue calls issued equals the number
of iterations strictly before the first cancelled observation — zero new
dequeues once cancellation is observed — and the final state equals the
state after just those pre-cancellation iterations, each of which ran its
dequeued job's `processJob` to completion: work in flight at cancellation
is finished and fully recorded, never silently dropped. -/
theorem cancellation_stops_dequeues_and_keeps_finished_work
    (st : RedisState) (jobType : String) (h : JobHandler) (now : Nat)
    (flags : List Bool) :
    (workerRun st jobType h now flags).2 = (flags.takeWhile (fun c => !c)).length
    ∧ (workerRun st jobType h now flags).1
        = (workerRun st jobType h now (flags.takeWhile (fun c => !c))).1 := by
  induction flags generalizing st with
  | nil => exact ⟨rfl, rfl⟩
  | cons c rest ih =>
      cases c with
      | true => simp [workerRun, List.takeWhile_cons]
      | false =>
          have hrec := ih (workerIter st jobType h now)
          simp [workerRun, List.takeWhile_cons, hrec.1, hrec.2]

/-! ### Worker pool: each job handled exactly once -/

theorem queueOf_addJob (st : RedisState) (jobID jobType data : String) (now : Nat) :
    queueOf (addJob st jobID jobType data now true true).1 (queueKey jobType)
      = queueOf st (queueKey jobType) ++ [jobID] := by
  simp [addJob, queueOf, RedisState.lpush, RedisState.set]

theorem brpop_eq_none (st : RedisState) (k : String) (hq : queueOf st k = []) :
    st.brpop k = none := by
  have hq' : (getA st.lists k).getD [] = [] := hq
  simp [RedisState.brpop, hq']

theorem brpop_eq_cons (st : RedisState) (k v : String) (rest : List String)
    (hq : queueOf st k = v :: rest) :
    st.brpop k = some (v, { st with lists := setA st.lists k rest })
    ∧ queueOf { st with lists := setA st.lists k rest } k = rest := by
  have hq' : (getA st.lists k).getD [] = v :: rest := hq
  exact ⟨by simp [RedisState.brpop, hq'], by simp [queueOf]⟩

theorem processJob_queueOf (st : RedisState) (jobID : String) (h : JobHandler)
    (now : Nat) (k : String) :
    queueOf (processJob st jobID h now) k = queueOf st k := by
  simp [queueOf, processJob_lists]

/-- Conservation through any interleaving of atomic dequeues and enqueues:
the ids handed to workers together with the ids still queued are a
permutation of the initially queued ids together with the produced ids —
`BRPOP` moves exactly one id from the queue to exactly one worker, and
nothing is duplicated or lost. -/
theorem runPool_perm (jobType : String) (h : JobHandler) (now : Nat) :
    ∀ (evs : List PoolEvent) (st : RedisState),
      ((runPool jobType h now st evs).2.map Prod.snd
          ++ queueOf (runPool jobType h now st evs).1 (queueKey jobType)).Perm
        (queueOf st (queueKey jobType) ++ enqIds evs) := by
  intro evs
  induction evs with
  | nil => intro st; simp [runPool, enqIds]
  | cons ev rest ih =>
      intro st
      cases ev with
      | deq w =>
          cases hq : queueOf st (queueKey jobType) with
          | nil =>
              have hb := brpop_eq_none st (queueKey jobType) hq
              simpa [runPool, hb, enqIds, hq] using ih st
          | cons v q =>
              obtain ⟨hb, hq2⟩ := brpop_eq_cons st (queueKey jobType) v q hq
              have hq3 : queueOf (processJob
                  { st with lists := setA st.lists (queueKey jobType) q } v h now)
                    (queueKey jobType) = q := by
                rw [processJob_queueOf]
                exact hq2
              have hrec := ih (processJob
                { st with lists := setA st.lists (queueKey jobType) q } v h now)
              rw [hq3] at hrec
              simpa [runPool, hb, enqIds, hq] using hrec.cons v
      | enq j d =>
          have hqa := queueOf_addJob st j jobType d now
          have hrec := ih (addJob st j jobType d now true true).1
          rw [hqa] at hrec
          simpa [runPool, enqIds, List.append_assoc] using hrec

/-- **C8.**  Under any interleaving of concurrent producers and any number of
worker loops sharing the queue, the atomic `BRPOP` is the single point of
mutual exclusion: the ids handed out are duplicate-free (no job is processed
twice), every id is handed to at most one worker invocation, and once the
queue has drained, every job that was initially queued or enqueued during
the run was handled by exactly one worker invocation — no job is lost. -/
theorem each_enqueued_job_handled_by_exactly_one_worker
    (jobType : String) (h : JobHandler) (now : Nat) (st : RedisState)
    (evs : List PoolEvent)
    (hnodup : (queueOf st (queueKey jobType) ++ enqIds evs).Nodup) :
    ((runPool jobType h now st evs).2.map Prod.snd).Nodup
    ∧ (∀ jid, ((runPool jobType h now st evs).2.map Prod.snd).count jid ≤ 1)
    ∧ (queueOf (runPool jobType h now st evs).1 (queueKey jobType) = [] →
        ∀ jid, jid ∈ queueOf st (queueKey jobType) ++ enqIds evs →
          ((runPool jobType h now st evs).2.map Prod.snd).count jid = 1) := by
  have hperm := runPool_perm jobType h now evs st
  have hnodup2 : ((runPool jobType h now st evs).2.map Prod.snd
      ++ queueOf (runPool jobType h now st evs).1 (queueKey jobType)).Nodup :=
    hperm.nodup_iff.mpr hnodup
  have hnA : ((runPool jobType h now st evs).2.map Prod.snd).Nodup :=
    hnodup2.of_append_left
  refine ⟨hnA, fun jid => List.nodup_iff_count_le_one.mp hnA jid, ?_⟩
  intro hempty jid hmem
  have hperm2 := hperm
  rw [hempty, List.append_nil] at hperm2
  rw [List.Perm.count_eq hperm2]
  exact List.count_eq_one_of_mem hnodup hmem

/-- Witness for C8: producers enqueue `"a"` and `"b"`, two workers drain the
queue; job `"a"` is handled exactly once. -/
theorem each_job_exactly_once_witness :
    ((runPool "echo" (fun _ => .ok "r") 0 RedisState.empty
        [.enq "a" "x", .enq "b" "y", .deq 0, .deq 1]).2.map Prod.snd).count "a" = 1 :=
  (each_enqueued_job_handled_by_exactly_one_worker "echo" (fun _ => .ok "r") 0
      RedisState.empty [.enq "a" "x", .enq "b" "y", .deq 0, .deq 1]
      (by decide)).2.2 (by decide) "a" (by decide)

/-! ### Handler failures (C4) -/

/-- Keys other than the processed job's record and result keys are untouched
by `processJob`. -/
theorem processJob_get_other (st : RedisState) (jobID : String) (h : JobHandler)
    (now : Nat) (k : String) (hk1 : k ≠ jobKey jobID) (hk2 : k ≠ resultKey jobID) :
    (processJob st jobID h now).get k = st.get k := by
  unfold processJob processJobWrites
  cases hg : st.get (jobKey jobID) with
  | none =>
      have hg' : getA st.kv (jobKey jobID) = none := hg
      simp [hg', applyW, RedisState.get]
  | some v =>
      have hg' : getA st.kv (jobKey jobID) = some v := hg
      cases v with
      | resV r => simp [hg', applyW, RedisState.get]
      | jobV j0 =>
          cases hh : h { j0 with status := JobStatus.processing } <;>
            simp [hg', hh, applyW, RedisState.get, RedisState.set,
              RedisState.publish, getA_setA_ne _ _ _ _ hk1, getA_setA_ne _ _ _ _ hk2]

/-- The explicit job-status field carried by a published payload, if any.
Formalises the spec's "StatusEvent with status Failed": a marshalled
`models.Job` carries its `Status` field, while a marshalled
`models.JobResult` — the payload `processJob` actually publishes — has no
status field at all (`JobID`, `Result`, `Error`, `CompletedAt` only). -/
def eventStatusField : RVal → Option JobStatus
  | .jobV j => some j.status
  | .resV _ => none

/-- **C4, counterexample.**  Enqueue job `"j1"` and process it with a handler
failing with `"boom"`: the job record is marked `failed` and a completion
event is published for the job, but the only published payload is the
`JobResult` `{jobId: "j1", result: none, error: "boom"}`, which carries no
status field — no subscriber receives a StatusEvent with status Failed, as
the claim asserts. -/
theorem failed_event_carries_no_status_field :
    (processJob (addJob RedisState.empty "j1" "echo" "d" 0 true true).1 "j1"
        (fun _ => .error "boom") 5).pubs
      = [(completedChannel "j1",
          .resV { jobId := "j1", result := none, error := some "boom",
                  completedAt := 5 })]
    ∧ getJob (processJob (addJob RedisState.empty "j1" "echo" "d" 0 true true).1 "j1"
        (fun _ => .error "boom") 5) "j1"
      = .ok { id := "j1", jobType := "echo", data := "d", createdAt := 0,
              status := .failed }
    ∧ eventStatusField (.resV { jobId := "j1", result := none,
                                error := some "boom", completedAt := 5 })
        ≠ some .failed := by
  exact ⟨by decide, by decide, by decide⟩

/-- **C4, amended.**  For every dequeued job whose handler returns an error,
the executor records the job as `failed` with the handler's error text in
the `JobResult`, publishes the job's completion event on the job's channel —
the payload being that `JobResult`, which carries the error text but no
explicit status field — and the worker loop neither crashes nor stops: the
next queued job of the same type is still dequeued and processed. -/
theorem handler_failure_recorded_published_loop_continues
    (st : RedisState) (jobType a b e r2 : String) (h : JobHandler)
    (ja jb : Job) (now : Nat)
    (hq : queueOf st (queueKey jobType) = [a, b])
    (hja : st.get (jobKey a) = some (.jobV ja))
    (hjb : st.get (jobKey b) = some (.jobV jb))
    (hk1 : jobKey b ≠ jobKey a) (hk2 : jobKey b ≠ resultKey a)
    (hk3 : jobKey a ≠ jobKey b) (hk4 : jobKey a ≠ resultKey b)
    (hk5 : resultKey a ≠ jobKey b) (hk6 : resultKey a ≠ resultKey b)
    (hfail : h { ja with status := .processing } = .error e)
    (hok : h { jb with status := .processing } = .ok r2) :
    getJob (workerRun st jobType h now [false, false]).1 a
        = .ok { ja with status := .failed }
    ∧ jqGetJobResult (workerRun st jobType h now [false, false]).1 a
        = .ok { jobId := a, result := none, error := some e, completedAt := now }
    ∧ jqGetJobResult (workerRun st jobType h now [false, false]).1 b
        = .ok { jobId := b, result := some r2, error := none, completedAt := now }
    ∧ (workerRun st jobType h now [false, false]).1.pubs
        = st.pubs
            ++ [(completedChannel a,
                 .resV { jobId := a, result := none, error := some e,
                         completedAt := now }),
                (completedChannel b,
                 .resV { jobId := b, result := some r2, error := none,
                         completedAt := now })] := by
  obtain ⟨hb1, hq1⟩ := brpop_eq_cons st (queueKey jobType) a [b] hq
  set st1 : RedisState := { st with lists := setA st.lists (queueKey jobType) [b] }
    with hst1
  have hja1 : st1.get (jobKey a) = some (.jobV ja) := hja
  have heffA := processJob_effect_error st1 a h now ja e hja1 hfail
  set st2 : RedisState := processJob st1 a h now with hst2
  have hq2 : queueOf st2 (queueKey jobType) = [b] := by
    rw [hst2, processJob_queueOf]
    exact hq1
  obtain ⟨hb2, hq3⟩ := brpop_eq_cons st2 (queueKey jobType) b [] hq2
  set st3 : RedisState := { st2 with lists := setA st2.lists (queueKey jobType) [] }
    with hst3
  have hjb3 : st3.get (jobKey b) = some (.jobV jb) := by
    show st2.get (jobKey b) = some (.jobV jb)
    rw [hst2, processJob_get_other st1 a h now (jobKey b) hk1 hk2]
    exact hjb
  have heffB := processJob_effect_ok st3 b h now jb r2 hjb3 hok
  set st4 : RedisState := processJob st3 b h now with hst4
  have hrun : (workerRun st jobType h now [false, false]).1 = st4 := by
    simp [workerRun, workerIter, hb1, ← hst1, ← hst2, hb2, ← hst3, ← hst4]
  have hgetA4 : st4.get (jobKey a) = some (.jobV { ja with status := .failed }) := by
    rw [hst4, processJob_get_other st3 b h now (jobKey a) hk3 hk4]
    show st2.get (jobKey a) = _
    exact heffA.1
  have hresA4 : st4.get (resultKey a)
      = some (.resV { jobId := a, result := none, error := some e,
                      completedAt := now }) := by
    rw [hst4, processJob_get_other st3 b h now (resultKey a) hk5 hk6]
    show st2.get (resultKey a) = _
    exact heffA.2.1
  refine ⟨?_, ?_, ?_, ?_⟩
  · rw [hrun]
    simp [getJob, hgetA4]
  · rw [hrun]
    simp [jqGetJobResult, hresA4]
  · rw [hrun]
    simp [jqGetJobResult, heffB.2.1]
  · rw [hrun]
    have hpubs3 : st3.pubs = st2.pubs := rfl
    have hpubs1 : st1.pubs = st.pubs := rfl
    rw [heffB.2.2.1, hpubs3]
    rw [show st2.pubs = st1.pubs ++ [(completedChannel a,
      RVal.resV { jobId := a, result := none, error := some e,
                  completedAt := now })] from heffA.2.2.1, hpubs1]
    simp

/-- Witness for C4's amended statement: jobs `"a"` (handler fails with
`"boom"`) then `"b"` (handler succeeds) are processed in two loop
iterations; `"a"` is recorded failed with the error text and `"b"` is still
processed. -/
theorem handler_failure_loop_continues_witness :
    getJob (workerRun
        ⟨[(jobKey "a", .jobV ⟨"a", "echo", "d", 0, .queued⟩),
          (jobKey "b", .jobV ⟨"b", "echo", "d", 0, .queued⟩)],
         [(queueKey "echo", ["a", "b"])], []⟩
        "echo" (fun j => if j.id = "a" then .error "boom" else .ok "5 words") 9
        [false, false]).1 "a"
      = .ok { id := "a", jobType := "echo", data := "d", createdAt := 0,
              status := .failed }
    ∧ jqGetJobResult (workerRun
        ⟨[(jobKey "a", .jobV ⟨"a", "echo", "d", 0, .queued⟩),
          (jobKey "b", .jobV ⟨"b", "echo", "d", 0, .queued⟩)],
         [(queueKey "echo", ["a", "b"])], []⟩
        "echo" (fun j => if j.id = "a" then .error "boom" else .ok "5 words") 9
        [false, false]).1 "b"
      = .ok { jobId := "b", result := some "5 words", error := none,
              completedAt := 9 } := by
  have hmain := handler_failure_recorded_published_loop_continues
    ⟨[(jobKey "a", .jobV ⟨"a", "echo", "d", 0, .queued⟩),
      (jobKey "b", .jobV ⟨"b", "echo", "d", 0, .queued⟩)],
     [(queueKey "echo", ["a", "b"])], []⟩
    "echo" "a" "b" "boom" "5 words"
    (fun j => if j.id = "a" then .error "boom" else .ok "5 words")
    ⟨"a", "echo", "d", 0, .queued⟩ ⟨"b", "echo", "d", 0, .queued⟩ 9
    (by decide) (by decide) (by decide) (by decide) (by decide) (by decide)
    (by decide) (by decide) (by decide) (by decide) (by decide)
  exact ⟨hmain.1, hmain.2.2.1⟩

end Bespin
